import Mathlib

/-!
# Presigned multipart upload broker

A shallow embedding of the three HTTP handlers of `main.go`
(`InitiateMultipartUploadHandler`, `GetPresignedURLHandler`,
`CompleteMultipartUploadHandler`) together with the library routines they
depend on, followed by the properties of the handlers.

Modelling conventions.

* A handler is a function of the ambient environment (`Env`), the response
  writer and the request.  It returns the response writer after the handler
  ran, the list of operations it invoked on the storage client (in order), and
  whether it ended in a run-time panic.
* The storage client is an arbitrary function of its input (`s3.Client`); a Go
  `error` is represented by its message, the result of `err.Error()`.
* Go's `int` is the 64-bit integer of the usual server targets
  (`strconv.intSize = 64`).  Integers are mathematical integers; every place
  where the machine width is observable (`strconv.Atoi`, the conversion
  `int32(..)`) is written out explicitly.
* Go strings are byte strings; they are modelled by Lean strings.  The only
  routine that looks inside a string is `strconv.Atoi`, which accepts nothing
  but the ASCII digits and a leading sign.  A character outside ASCII is, in
  Go, a run of bytes above `0x7f`, none of them a digit or a sign, so `Atoi`
  rejects the string whether it is read byte by byte or character by
  character.
* `strconv.Atoi`, `http.Error`, the response recorder and `time` follow the Go
  standard library; the JSON decoder and the RFC 3339 formatter are left
  uninterpreted (fields of `Env`).
-/

namespace PresignedMultipart

/-! ## Machine integers -/

/-- Go conversion `int32(x)` of an `int`: the low 32 bits of `x`, read as a
two's complement number. -/
def int32 (x : Int) : Int := (x + 2147483648) % 4294967296 - 2147483648

/-! ## `strconv` -/

namespace strconv

/-- The two sentinel errors a `*strconv.NumError` can wrap. -/
inductive NumError where
  | ErrSyntax
  | ErrRange
deriving DecidableEq, Repr

/-- Size in bits of Go's `int` (`strconv.IntSize`) on a 64-bit target. -/
def intSize : Nat := 64

/-- Constant `maxUint64 = 1<<64 - 1`. -/
def maxUint64 : Nat := 18446744073709551615

/-- Test `'0' <= c && c <= '9'` on one byte of the input (in `Atoi`'s fast path
it is written `ch -= '0'; ch > 9` on an unsigned byte, which is the negation of
the same test). -/
def isDigitByte (c : Char) : Bool := decide (48 ≤ c.toNat ∧ c.toNat ≤ 57)

/-- Value `c - '0'` of a digit byte. -/
def digitOf (c : Char) : Nat := c.toNat - 48

/-- The digit loop of `ParseUint` for `base = 10`, `bitSize = 64`
(`maxVal = 1<<64 - 1`, `cutoff = maxUint64/10 + 1`).  The accumulator `n` is a
`uint64`; the addition `n + d` is taken modulo `2^64` and the wrap-around is
detected by `n1 < n`, as in the source.  In base 10 without the base prefix
every byte that is not a digit (letters and `_` included) is a syntax error. -/
def parseUintLoop (maxVal : Nat) : List Char → Nat → Nat × Option NumError
  | [], n => (n, none)
  | c :: cs, n =>
    if isDigitByte c then
      if n ≥ maxUint64 / 10 + 1 then (maxVal, some NumError.ErrRange)
      else
        let n10 := n * 10
        let n1 := (n10 + digitOf c) % 18446744073709551616
        if n1 < n10 ∨ n1 > maxVal then (maxVal, some NumError.ErrRange)
        else parseUintLoop maxVal cs n1
    else (0, some NumError.ErrSyntax)

/-- Function `ParseUint(s, 10, 0)`; `bitSize = 0` selects `IntSize`. -/
def ParseUint (s : List Char) : Nat × Option NumError :=
  if s = [] then (0, some NumError.ErrSyntax)
  else parseUintLoop (2 ^ intSize - 1) s 0

/-- Function `ParseInt(s, 10, 0)`: picks off the sign, converts the rest with
`ParseUint` and checks the range of a signed `int`. -/
def ParseInt (s : List Char) : Int × Option NumError :=
  match s with
  | [] => (0, some NumError.ErrSyntax)
  | c0 :: rest =>
    let neg : Bool := decide (c0 = '-')
    let s1 := if c0 = '+' ∨ c0 = '-' then rest else s
    let r := ParseUint s1
    let un := r.1
    let err := r.2
    if err = some NumError.ErrSyntax then (0, err)
    else
      let cutoff : Nat := 2 ^ (intSize - 1)
      if neg = false ∧ un ≥ cutoff then (((cutoff - 1 : Nat) : Int), some NumError.ErrRange)
      else if neg = true ∧ un > cutoff then (-((cutoff : Nat) : Int), some NumError.ErrRange)
      else (if neg then -((un : Nat) : Int) else ((un : Nat) : Int), none)

/-- The digit loop of `Atoi`'s fast path; `none` is the syntax error.  The
input has fewer than 19 bytes, so `n*10 + int(ch)` stays below `10^18` and
never overflows the 64-bit `int`. -/
def atoiLoop : List Char → Int → Option Int
  | [], n => some n
  | ch :: cs, n =>
    if isDigitByte ch then atoiLoop cs (n * 10 + ((digitOf ch : Nat) : Int)) else none

/-- Function `strconv.Atoi`: the value and the error (`none` for `nil`). -/
def Atoi (s : String) : Int × Option NumError :=
  let b := s.toList
  let sLen := b.length
  if (intSize = 32 ∧ 0 < sLen ∧ sLen < 10) ∨ (intSize = 64 ∧ 0 < sLen ∧ sLen < 19) then
    match b with
    | [] => (0, some NumError.ErrSyntax)
    | c0 :: rest =>
      let signed : Bool := decide (c0 = '-' ∨ c0 = '+')
      let ds := if signed then rest else b
      if signed = true ∧ ds.length < 1 then (0, some NumError.ErrSyntax)
      else
        match atoiLoop ds 0 with
        | none => (0, some NumError.ErrSyntax)
        | some n => (if c0 = '-' then -n else n, none)
  else ParseInt b

end strconv

/-! ## `time` -/

namespace time

/-- Constant `time.Second`, a `Duration` in nanoseconds. -/
def Second : Nat := 1000000000

/-- Whole seconds since the epoch of an instant given in nanoseconds.  The
layout `time.RFC3339` has no fractional seconds, so the formatted text of an
instant depends on this value only. -/
def Unix (t : Nat) : Nat := t / Second

end time

/-! ## Storage client (`s3`) -/

namespace s3

/-- Input of `CreateMultipartUpload` (the fields the handler sets). -/
structure CreateMultipartUploadInput where
  Bucket : String
  Key : String
deriving DecidableEq, Repr

/-- Output of `CreateMultipartUpload`; `UploadId` is a `*string`. -/
structure CreateMultipartUploadOutput where
  UploadId : Option String
deriving DecidableEq, Repr

/-- Input of `PresignUploadPart`; `PartNumber` is an `*int32`. -/
structure UploadPartInput where
  Bucket : String
  Key : String
  PartNumber : Int
  UploadId : String
deriving DecidableEq, Repr

/-- The presigned request; the handler reads its `URL`. -/
structure PresignedHTTPRequest where
  URL : String
deriving DecidableEq, Repr

/-- One element of `types.CompletedMultipartUpload.Parts`. -/
structure CompletedPart where
  PartNumber : Int
  ETag : String
deriving DecidableEq, Repr

/-- Input of `CompleteMultipartUpload`; `MultipartUpload` holds the `Parts`. -/
structure CompleteMultipartUploadInput where
  Bucket : String
  Key : String
  UploadId : String
  MultipartUpload : List CompletedPart
deriving DecidableEq, Repr

/-- The storage client and its presign client: each operation maps its input
to a result or to the message of the error it returns. -/
structure Client where
  CreateMultipartUpload : CreateMultipartUploadInput → Except String CreateMultipartUploadOutput
  PresignUploadPart : UploadPartInput → Nat → Except String PresignedHTTPRequest
  CompleteMultipartUpload : CompleteMultipartUploadInput → Except String Unit

end s3

/-- One operation invoked on the storage client, with the input it was given
(for the presign call also the validity passed by `WithPresignExpires`). -/
inductive RemoteCall where
  | CreateMultipartUpload (input : s3.CreateMultipartUploadInput)
  | PresignUploadPart (input : s3.UploadPartInput) (expires : Nat)
  | CompleteMultipartUpload (input : s3.CompleteMultipartUploadInput)
deriving DecidableEq, Repr

/-! ## `encoding/json` values and `net/http` -/

/-- The values the handlers put into a response map. -/
inductive Json where
  | str (s : String)
  | num (n : Int)
deriving DecidableEq, Repr

/-- One write to the response body: plain text, or the JSON document that
`json.Encoder.Encode` produces for a `map[string]interface{}`, kept as the map
it encodes (a client that decodes the document reads the same entries back). -/
inductive Chunk where
  | text (s : String)
  | json (fields : List (String × Json))
deriving DecidableEq, Repr

/-- The entry of a response map under `key`. -/
def Chunk.field (c : Chunk) (key : String) : Option Json :=
  match c with
  | Chunk.text _ => none
  | Chunk.json fields => fields.lookup key

namespace http

def StatusOK : Nat := 200
def StatusCreated : Nat := 201
def StatusAccepted : Nat := 202
def StatusBadRequest : Nat := 400
def StatusInternalServerError : Nat := 500

/-- The response writer, as recorded by `httptest.ResponseRecorder`. -/
structure ResponseRecorder where
  Code : Nat
  wroteHeader : Bool
  Header : List (String × String)
  Body : List Chunk
deriving DecidableEq, Repr

/-- Function `httptest.NewRecorder()`: nothing written, `Code` 200. -/
def NewRecorder : ResponseRecorder :=
  { Code := 200, wroteHeader := false, Header := [], Body := [] }

/-- Call `w.Header().Set(key, value)`; the header map is frozen once the
status line is written. -/
def ResponseRecorder.HeaderSet (w : ResponseRecorder) (key value : String) : ResponseRecorder :=
  if w.wroteHeader then w
  else { w with Header := (key, value) :: w.Header.filter (fun kv => kv.1 != key) }

/-- Call `w.WriteHeader(code)`; only the first call takes effect. -/
def ResponseRecorder.WriteHeader (w : ResponseRecorder) (code : Nat) : ResponseRecorder :=
  if w.wroteHeader then w else { w with Code := code, wroteHeader := true }

/-- Call `w.Write(..)`: writes the status line with 200 if it was not written
yet, then appends to the body. -/
def ResponseRecorder.Write (w : ResponseRecorder) (c : Chunk) : ResponseRecorder :=
  let w1 := w.WriteHeader StatusOK
  { w1 with Body := w1.Body ++ [c] }

/-- Function `http.Error(w, error, code)`. -/
def Error (w : ResponseRecorder) (error : String) (code : Nat) : ResponseRecorder :=
  let w1 := w.HeaderSet "Content-Type" "text/plain; charset=utf-8"
  let w2 := w1.HeaderSet "X-Content-Type-Options" "nosniff"
  let w3 := w2.WriteHeader code
  w3.Write (Chunk.text (error ++ "\n"))

/-- The request: the parsed query `r.URL.Query()` in order of appearance and
the raw body. -/
structure Request where
  Query : List (String × String)
  Body : String
deriving DecidableEq, Repr

/-- Call `r.URL.Query().Get(key)`: the first value of `key`, or `""`. -/
def Request.QueryGet (r : Request) (key : String) : String :=
  match r.Query.lookup key with
  | some v => v
  | none => ""

end http

namespace json

/-- Call `json.NewEncoder(w).Encode(v)` for a map of strings and integers:
such a value always marshals and the recorder's `Write` does not fail, so the
returned error is `nil`. -/
def Encode (w : http.ResponseRecorder) (v : List (String × Json)) :
    http.ResponseRecorder × Option String :=
  (w.Write (Chunk.json v), none)

end json

/-! ## The handlers -/

/-- One element of `requestBody.Parts`. -/
structure Part where
  PartNumber : Int
  ETag : String
deriving DecidableEq, Repr

/-- The anonymous struct `requestBody` of `CompleteMultipartUploadHandler`. -/
structure RequestBody where
  Parts : List Part
deriving DecidableEq, Repr

/-- What a handler reads from outside the request: the environment variable
`AWS_BUCKET`, the package-level `s3Client`, the clock reading of `time.Now()`
(nanoseconds since the epoch), the text `Format(time.RFC3339)` gives for a
whole second, and the outcome of `json.NewDecoder(r.Body).Decode(&requestBody)`
on a body (the decoded struct, or the message of the error). -/
structure Env where
  AWS_BUCKET : String
  s3Client : s3.Client
  Now : Nat
  RFC3339 : Nat → String
  Decode : String → Except String RequestBody

/-- The outcome of running a handler. -/
structure Exec where
  w : http.ResponseRecorder
  calls : List RemoteCall
  panicked : Bool

/-- Handler to initiate the multipart upload (`main.go`, lines 49-83). -/
def InitiateMultipartUploadHandler (env : Env) (w : http.ResponseRecorder)
    (r : http.Request) : Exec :=
  let bucket := env.AWS_BUCKET
  if bucket = "" then
    { w := http.Error w "AWS_BUCKET environment variable is not set"
        http.StatusInternalServerError,
      calls := [], panicked := false }
  else
    let key := r.QueryGet "key"
    if key = "" then
      { w := http.Error w "Missing 'key' parameter" http.StatusBadRequest,
        calls := [], panicked := false }
    else
      let input : s3.CreateMultipartUploadInput := { Bucket := bucket, Key := key }
      match env.s3Client.CreateMultipartUpload input with
      | Except.error err =>
        { w := http.Error w ("Failed to create multipart upload: " ++ err)
            http.StatusInternalServerError,
          calls := [RemoteCall.CreateMultipartUpload input], panicked := false }
      | Except.ok output =>
        match output.UploadId with
        | none =>
          { w := w, calls := [RemoteCall.CreateMultipartUpload input], panicked := true }
        | some uploadId =>
          let response := [("uploadId", Json.str uploadId)]
          let w1 := w.HeaderSet "Content-Type" "application/json"
          let w2 := w1.WriteHeader http.StatusAccepted
          match json.Encode w2 response with
          | (w3, some err) =>
            { w := http.Error w3 ("Failed to encode response: " ++ err)
                http.StatusInternalServerError,
              calls := [RemoteCall.CreateMultipartUpload input], panicked := false }
          | (w3, none) =>
            { w := w3, calls := [RemoteCall.CreateMultipartUpload input], panicked := false }

/-- Handler to generate the presigned URL for a part upload (`main.go`,
lines 86-141). -/
def GetPresignedURLHandler (env : Env) (w : http.ResponseRecorder)
    (r : http.Request) : Exec :=
  let bucket := env.AWS_BUCKET
  let key := r.QueryGet "key"
  let uploadId := r.QueryGet "uploadId"
  let partNumberStr := r.QueryGet "partNumber"
  if uploadId = "" then
    { w := http.Error w "Missing 'uploadId' parameter" http.StatusBadRequest,
      calls := [], panicked := false }
  else if key = "" then
    { w := http.Error w "Missing 'key' parameter" http.StatusBadRequest,
      calls := [], panicked := false }
  else
    let partNumber := (strconv.Atoi partNumberStr).1
    let err := (strconv.Atoi partNumberStr).2
    if err ≠ none ∨ partNumber ≤ 0 then
      { w := http.Error w "Invalid 'partNumber' parameter" http.StatusBadRequest,
        calls := [], panicked := false }
    else
      let expirationDuration := 3600 * time.Second
      let input : s3.UploadPartInput :=
        { Bucket := bucket, Key := key, PartNumber := int32 partNumber, UploadId := uploadId }
      match env.s3Client.PresignUploadPart input expirationDuration with
      | Except.error err =>
        { w := http.Error w ("Failed to generate presigned URL: " ++ err)
            http.StatusInternalServerError,
          calls := [RemoteCall.PresignUploadPart input expirationDuration],
          panicked := false }
      | Except.ok req =>
        let expirationTime := env.RFC3339 (time.Unix (env.Now + expirationDuration))
        let response :=
          [("uploadUrl", Json.str req.URL),
           ("uploadId", Json.str uploadId),
           ("partNumber", Json.num partNumber),
           ("expiresAt", Json.str expirationTime)]
        let w1 := w.HeaderSet "Content-Type" "application/json"
        let w2 := w1.WriteHeader http.StatusCreated
        match json.Encode w2 response with
        | (w3, some err) =>
          { w := http.Error w3 ("Failed to encode response: " ++ err)
              http.StatusInternalServerError,
            calls := [RemoteCall.PresignUploadPart input expirationDuration],
            panicked := false }
        | (w3, none) =>
          { w := w3, calls := [RemoteCall.PresignUploadPart input expirationDuration],
            panicked := false }

/-- The loop of `CompleteMultipartUploadHandler` that appends one
`types.CompletedPart` per decoded part (`main.go`, lines 166-172). -/
def completedParts (parts : List Part) : List s3.CompletedPart :=
  parts.foldl
    (fun acc part => acc ++ [{ PartNumber := int32 part.PartNumber, ETag := part.ETag }]) []

/-- Handler to complete the multipart upload (`main.go`, lines 143-190). -/
def CompleteMultipartUploadHandler (env : Env) (w : http.ResponseRecorder)
    (r : http.Request) : Exec :=
  let bucket := env.AWS_BUCKET
  let key := r.QueryGet "key"
  let uploadId := r.QueryGet "uploadId"
  if key = "" ∨ uploadId = "" then
    { w := http.Error w "Missing 'key' or 'uploadId' parameter" http.StatusBadRequest,
      calls := [], panicked := false }
  else
    match env.Decode r.Body with
    | Except.error err =>
      { w := http.Error w ("Failed to parse request body: " ++ err) http.StatusBadRequest,
        calls := [], panicked := false }
    | Except.ok requestBody =>
      let input : s3.CompleteMultipartUploadInput :=
        { Bucket := bucket, Key := key, UploadId := uploadId,
          MultipartUpload := completedParts requestBody.Parts }
      match env.s3Client.CompleteMultipartUpload input with
      | Except.error err =>
        { w := http.Error w ("Failed to complete multipart upload: " ++ err)
            http.StatusInternalServerError,
          calls := [RemoteCall.CompleteMultipartUpload input], panicked := false }
      | Except.ok _ =>
        let w1 := w.WriteHeader http.StatusOK
        { w := w1.Write (Chunk.text "Multipart upload completed successfully"),
          calls := [RemoteCall.CompleteMultipartUpload input], panicked := false }

/-! ## Vocabulary of the specification -/

/-- A numeral: a non-empty run of the digits `0`..`9`. -/
def IsNumeral (ds : List Char) : Bool := !ds.isEmpty && ds.all Char.isDigit

/-- The number a run of digits denotes in base ten. -/
def numeralValue (ds : List Char) : Nat :=
  ds.foldl (fun a c => 10 * a + (c.toNat - 48)) 0

/-- The characters after an optional leading sign. -/
def unsignedPart (b : List Char) : List Char :=
  match b with
  | [] => []
  | c :: cs => if c = '-' ∨ c = '+' then cs else c :: cs

/-- A decimal integer: an optional sign `+` or `-` followed by a numeral. -/
def IsDecimalInteger (s : String) : Bool := IsNumeral (unsignedPart s.toList)

/-- The integer a decimal integer denotes. -/
def decimalValue (s : String) : Int :=
  if s.toList.head? = some '-' then -((numeralValue (unsignedPart s.toList) : Nat) : Int)
  else ((numeralValue (unsignedPart s.toList) : Nat) : Int)

/-! ## Concrete environments and requests used in the examples -/

/-- A storage client whose every operation succeeds: it issues the token
`"U1"` and signs every part with the URL `"https://signed"`. -/
def okClient : s3.Client :=
  { CreateMultipartUpload := fun _ => Except.ok { UploadId := some "U1" },
    PresignUploadPart := fun _ _ => Except.ok { URL := "https://signed" },
    CompleteMultipartUpload := fun _ => Except.ok () }

/-- A storage client whose every operation fails with the message `"boom"`. -/
def failClient : s3.Client :=
  { CreateMultipartUpload := fun _ => Except.error "boom",
    PresignUploadPart := fun _ _ => Except.error "boom",
    CompleteMultipartUpload := fun _ => Except.error "boom" }

/-- A storage client that creates a session but issues the empty token. -/
def emptyTokenClient : s3.Client :=
  { CreateMultipartUpload := fun _ => Except.ok { UploadId := some "" },
    PresignUploadPart := fun _ _ => Except.ok { URL := "https://signed" },
    CompleteMultipartUpload := fun _ => Except.ok () }

/-- The body `{"parts":[{"PartNumber":1,"ETag":"abc"}]}`. -/
def onePartBody : String :=
  "\x7b\"parts\":[\x7b\"PartNumber\":1,\"ETag\":\"abc\"\x7d]\x7d"

/-- The body `{"parts":[{"PartNumber":4294967297,"ETag":"abc"}]}`. -/
def bigPartBody : String :=
  "\x7b\"parts\":[\x7b\"PartNumber\":4294967297,\"ETag\":\"abc\"\x7d]\x7d"

/-- A decoder for the examples.  It gives what `encoding/json` gives on the
two bodies above and on the empty object, and treats every other body as
undecodable. -/
def sampleDecode (body : String) : Except String RequestBody :=
  if body = "\x7b\x7d" then Except.ok { Parts := [] }
  else if body = onePartBody then Except.ok { Parts := [{ PartNumber := 1, ETag := "abc" }] }
  else if body = bigPartBody then
    Except.ok { Parts := [{ PartNumber := 4294967297, ETag := "abc" }] }
  else Except.error "invalid character"

/-- Environment with the bucket `"bkt"` and the given client. -/
def sampleEnv (client : s3.Client) : Env :=
  { AWS_BUCKET := "bkt", s3Client := client, Now := 1700000000123456789,
    RFC3339 := fun sec => toString sec, Decode := sampleDecode }

/-- The request `/presigned?key=test.webm&uploadId=U1&partNumber=<pn>`. -/
def presignRequest (pn : String) : http.Request :=
  { Query := [("key", "test.webm"), ("uploadId", "U1"), ("partNumber", pn)], Body := "" }

/-- The request `/initiate?key=<key>` (no `key` parameter when `key` is `""`). -/
def initiateRequest (key : String) : http.Request :=
  { Query := if key = "" then [] else [("key", key)], Body := "" }

/-- The request `/complete?key=test.webm&uploadId=U1` with the given body. -/
def completeRequest (body : String) : http.Request :=
  { Query := [("key", "test.webm"), ("uploadId", "U1")], Body := body }

/-! ## Properties of `strconv.Atoi` -/

open strconv

theorem isDigitByte_eq_isDigit (c : Char) : isDigitByte c = c.isDigit := by
  unfold isDigitByte Char.isDigit
  have h1 : (c.val ≥ 48) ↔ 48 ≤ c.toNat := by
    show (48 : UInt32) ≤ c.val ↔ _
    rw [UInt32.le_def]; rfl
  have h2 : (c.val ≤ 57) ↔ c.toNat ≤ 57 := by
    rw [UInt32.le_def]; rfl
  by_cases a : 48 ≤ c.toNat <;> by_cases b : c.toNat ≤ 57 <;> simp [a, b, h1, h2]

theorem le_valFrom (ds : List Char) (n : Nat) :
    n ≤ ds.foldl (fun a c => 10 * a + (c.toNat - 48)) n := by
  induction ds generalizing n with
  | nil => simp
  | cons c cs ih =>
    simp only [List.foldl_cons]
    exact le_trans (by omega) (ih _)

theorem parseUintLoop_digits (ds : List Char) (n : Nat)
    (hd : ds.all Char.isDigit = true) (hn : n < 18446744073709551616) :
    parseUintLoop 18446744073709551615 ds n =
      if ds.foldl (fun a c => 10 * a + (c.toNat - 48)) n < 18446744073709551616 then
        (ds.foldl (fun a c => 10 * a + (c.toNat - 48)) n, none)
      else (18446744073709551615, some NumError.ErrRange) := by
  induction ds generalizing n with
  | nil => simp [parseUintLoop, hn]
  | cons c cs ih =>
    simp only [List.all_cons, Bool.and_eq_true] at hd
    obtain ⟨hc, hcs⟩ := hd
    have hc2 : isDigitByte c = true := by rw [isDigitByte_eq_isDigit]; exact hc
    have hc3 : 48 ≤ c.toNat ∧ c.toNat ≤ 57 := by simpa [isDigitByte] using hc2
    simp only [parseUintLoop, hc2, if_true, List.foldl_cons, maxUint64, digitOf]
    have hge := le_valFrom cs (10 * n + (c.toNat - 48))
    by_cases h1 : n ≥ 18446744073709551615 / 10 + 1
    · rw [if_pos h1, if_neg]
      omega
    · rw [if_neg h1]
      by_cases h2 : n * 10 + (c.toNat - 48) < 18446744073709551616
      · have hmod : (n * 10 + (c.toNat - 48)) % 18446744073709551616 = n * 10 + (c.toNat - 48) :=
          Nat.mod_eq_of_lt h2
        simp only [hmod]
        rw [if_neg (by omega)]
        rw [ih _ hcs h2]
        have : 10 * n + (c.toNat - 48) = n * 10 + (c.toNat - 48) := by omega
        rw [this]
      · rw [if_pos, if_neg]
        · omega
        · left
          omega


theorem parseUintLoop_shape (M : Nat) (ds : List Char) (n : Nat) :
    (parseUintLoop M ds n).2 = none ∨ parseUintLoop M ds n = (0, some NumError.ErrSyntax)
      ∨ parseUintLoop M ds n = (M, some NumError.ErrRange) := by
  induction ds generalizing n with
  | nil => simp [parseUintLoop]
  | cons c cs ih =>
    simp only [parseUintLoop]
    split
    · split
      · simp
      · split
        · simp
        · exact ih _
    · simp

theorem parseUintLoop_nondigit (M : Nat) (ds : List Char) (n : Nat)
    (hd : ds.all Char.isDigit = false) : (parseUintLoop M ds n).2 ≠ none := by
  induction ds generalizing n with
  | nil => simp at hd
  | cons c cs ih =>
    simp only [parseUintLoop]
    by_cases hc : isDigitByte c = true
    · have hcs : cs.all Char.isDigit = false := by
        rw [isDigitByte_eq_isDigit] at hc
        simpa [List.all_cons, hc] using hd
      rw [if_pos hc]
      split
      · simp
      · split
        · simp
        · exact ih _ hcs
    · rw [if_neg hc]; simp

theorem atoiLoop_eq (ds : List Char) (n : Nat) :
    atoiLoop ds (n : Int) =
      if ds.all Char.isDigit = true then
        some ((ds.foldl (fun a c => 10 * a + (c.toNat - 48)) n : Nat) : Int)
      else none := by
  induction ds generalizing n with
  | nil => simp [atoiLoop]
  | cons c cs ih =>
    simp only [atoiLoop, List.all_cons, List.foldl_cons, isDigitByte_eq_isDigit, digitOf]
    by_cases hc : c.isDigit = true
    · have : (n : Int) * 10 + ((c.toNat - 48 : Nat) : Int) = ((10 * n + (c.toNat - 48) : Nat) : Int) := by
        push_cast; ring
      rw [if_pos hc, this, ih]
      simp [hc]
    · simp [hc]

theorem valFrom_lt_pow (ds : List Char) (n : Nat) (hd : ds.all Char.isDigit = true) :
    ds.foldl (fun a c => 10 * a + (c.toNat - 48)) n < (n + 1) * 10 ^ ds.length := by
  induction ds generalizing n with
  | nil => simp
  | cons c cs ih =>
    simp only [List.all_cons, Bool.and_eq_true] at hd
    obtain ⟨hc, hcs⟩ := hd
    rw [← isDigitByte_eq_isDigit] at hc
    have hc3 : 48 ≤ c.toNat ∧ c.toNat ≤ 57 := by simpa [isDigitByte] using hc
    simp only [List.foldl_cons, List.length_cons]
    refine lt_of_lt_of_le (ih _ hcs) ?_
    rw [pow_succ]
    have : 10 * n + (c.toNat - 48) + 1 ≤ (n + 1) * 10 := by omega
    calc (10 * n + (c.toNat - 48) + 1) * 10 ^ cs.length
        ≤ ((n + 1) * 10) * 10 ^ cs.length := Nat.mul_le_mul_right _ this
      _ = (n + 1) * (10 ^ cs.length * 10) := by ring

theorem numeralValue_lt (ds : List Char) (hd : ds.all Char.isDigit = true)
    (hl : ds.length ≤ 18) : numeralValue ds < 1000000000000000000 := by
  have h := valFrom_lt_pow ds 0 hd
  have h2 : 10 ^ ds.length ≤ 10 ^ 18 := Nat.pow_le_pow_right (by norm_num) hl
  unfold numeralValue
  norm_num at h h2 ⊢
  omega


theorem ParseInt_spec (c0 : Char) (rest : List Char) :
    let ds := unsignedPart (c0 :: rest)
    let v : Int := if c0 = '-' then -((numeralValue ds : Nat) : Int) else ((numeralValue ds : Nat) : Int)
    ((ParseInt (c0 :: rest)).2 = none ↔
      (IsNumeral ds = true ∧ -9223372036854775808 ≤ v ∧ v ≤ 9223372036854775807)) ∧
    ((ParseInt (c0 :: rest)).2 = none → (ParseInt (c0 :: rest)).1 = v) := by
  intro ds v
  have hs1 : (if c0 = '+' ∨ c0 = '-' then rest else c0 :: rest) = ds := by
    show _ = unsignedPart (c0 :: rest)
    unfold unsignedPart
    by_cases a : c0 = '-' <;> by_cases b : c0 = '+' <;> simp [a, b]
  simp only [ParseInt, hs1]
  by_cases hnil : ds = []
  · simp [ParseUint, hnil, IsNumeral]
  · by_cases hd : ds.all Char.isDigit = true
    · have hnum : IsNumeral ds = true := by
        cases hds : ds with
        | nil => exact absurd hds hnil
        | cons a as => rw [hds] at hd; simp [IsNumeral, hd]
      have hloop := parseUintLoop_digits ds 0 hd (by norm_num)
      have hv : ds.foldl (fun a c => 10 * a + (c.toNat - 48)) 0 = numeralValue ds := rfl
      rw [hv] at hloop
      simp only [ParseUint, hnil, if_false, intSize]
      norm_num only at hloop ⊢
      rw [hloop]
      by_cases hlt : numeralValue ds < 18446744073709551616
      · rw [if_pos hlt]
        by_cases hneg : c0 = '-'
        · simp only [hneg, v, if_true, decide_True, hnum, true_and]
          by_cases hr : numeralValue ds > 9223372036854775808
          · simp [hr]
          · simp [hr]; omega
        · simp only [hneg, v, if_false, decide_False, hnum, true_and]
          by_cases hr : numeralValue ds ≥ 9223372036854775808
          · simp [hr]; omega
          · simp [hr]; omega
      · rw [if_neg hlt]
        by_cases hneg : c0 = '-'
        · simp only [hneg, v, if_true, decide_True, hnum, true_and]
          simp; omega
        · simp only [hneg, v, if_false, decide_False, hnum, true_and]
          simp; omega
    · have hd2 : ds.all Char.isDigit = false := by simpa using hd
      have hnum : IsNumeral ds = false := by simp [IsNumeral, hd2]
      have hne := parseUintLoop_nondigit (2 ^ intSize - 1) ds 0 hd2
      simp only [ParseUint, hnil, if_false, hnum]
      rcases parseUintLoop_shape (2 ^ intSize - 1) ds 0 with h | h | h
      · exact absurd h hne
      · simp [h]
      · rw [h]
        by_cases hneg : c0 = '-' <;> simp [hneg, intSize]


theorem atoi_fast_tail (c0 : Char) (ds : List Char) (hl : ds.length ≤ 18) (hne : ds ≠ []) :
    ((match atoiLoop ds 0 with
        | none => ((0 : Int), some NumError.ErrSyntax)
        | some n => (if c0 = '-' then -n else n, none)).2 = none ↔
      (IsNumeral ds = true
        ∧ -9223372036854775808 ≤
            (if c0 = '-' then -((numeralValue ds : Nat) : Int) else ((numeralValue ds : Nat) : Int))
        ∧ (if c0 = '-' then -((numeralValue ds : Nat) : Int) else ((numeralValue ds : Nat) : Int))
            ≤ 9223372036854775807)) ∧
    ((match atoiLoop ds 0 with
        | none => ((0 : Int), some NumError.ErrSyntax)
        | some n => (if c0 = '-' then -n else n, none)).2 = none →
      (match atoiLoop ds 0 with
        | none => ((0 : Int), some NumError.ErrSyntax)
        | some n => (if c0 = '-' then -n else n, none)).1 =
        (if c0 = '-' then -((numeralValue ds : Nat) : Int) else ((numeralValue ds : Nat) : Int))) := by
  have hloop := atoiLoop_eq ds 0
  simp only [Nat.cast_zero] at hloop
  rw [hloop]
  by_cases hd : ds.all Char.isDigit = true
  · have hb := numeralValue_lt ds hd hl
    have hv : ds.foldl (fun a c => 10 * a + (c.toNat - 48)) 0 = numeralValue ds := rfl
    have hnum : IsNumeral ds = true := by
      cases hds2 : ds with
      | nil => exact absurd hds2 hne
      | cons a as => rw [hds2] at hd; simp [IsNumeral, hd]
    rw [if_pos hd, hv]
    simp only [hnum, true_and, true_iff, implies_true, and_true]
    split_ifs <;> omega
  · have hnum : IsNumeral ds = false := by
      have hd2 : ds.all Char.isDigit = false := by simpa using hd
      simp [IsNumeral, hd2]
    simp [hd, hnum]

theorem Atoi_spec (s : String) :
    ((Atoi s).2 = none ↔
      (IsDecimalInteger s = true ∧ -9223372036854775808 ≤ decimalValue s
        ∧ decimalValue s ≤ 9223372036854775807)) ∧
    ((Atoi s).2 = none → (Atoi s).1 = decimalValue s) := by
  unfold Atoi IsDecimalInteger decimalValue
  generalize s.toList = b
  cases b with
  | nil => simp [ParseInt, unsignedPart, IsNumeral, intSize]
  | cons c0 rest =>
    have hhead : ((c0 :: rest).head? = some '-') ↔ c0 = '-' := by simp
    simp only [hhead, List.length_cons]
    by_cases hlen : rest.length + 1 < 19
    · have hfast : (intSize = 32 ∧ 0 < rest.length + 1 ∧ rest.length + 1 < 10) ∨
          (intSize = 64 ∧ 0 < rest.length + 1 ∧ rest.length + 1 < 19) := by
        right; exact ⟨rfl, by omega, hlen⟩
      simp only [hfast, if_true]
      by_cases hsig : c0 = '-' ∨ c0 = '+'
      · have hu : unsignedPart (c0 :: rest) = rest := by simp [unsignedPart, hsig]
        simp only [hu, hsig, decide_True, if_true, true_and]
        by_cases hnil : rest = []
        · subst hnil
          simp [IsNumeral]
        · have hl1 : ¬ rest.length < 1 := by
            cases rest with
            | nil => exact absurd rfl hnil
            | cons a as => simp
          rw [if_neg hl1]
          exact atoi_fast_tail c0 rest (by omega) hnil
      · have hu : unsignedPart (c0 :: rest) = c0 :: rest := by simp [unsignedPart, hsig]
        simp only [hu, hsig, decide_False, if_false, false_and]
        simp only [Bool.false_eq_true, if_false]
        exact atoi_fast_tail c0 (c0 :: rest) (by simp only [List.length_cons]; omega) (by simp)
    · have hslow : ¬ ((intSize = 32 ∧ 0 < rest.length + 1 ∧ rest.length + 1 < 10) ∨
          (intSize = 64 ∧ 0 < rest.length + 1 ∧ rest.length + 1 < 19)) := by
        simp only [intSize]
        omega
      simp only [hslow, if_false]
      exact ParseInt_spec c0 rest


theorem digitChar_spec (k : Nat) (hk : k < 10) :
    (Nat.digitChar k).isDigit = true ∧ (Nat.digitChar k).toNat - 48 = k := by
  interval_cases k <;> exact ⟨by decide, by decide⟩

theorem toDigitsCore_spec (fuel : Nat) : ∀ (n : Nat) (acc : List Char), n < fuel →
    ∃ pre : List Char, Nat.toDigitsCore 10 fuel n acc = pre ++ acc ∧ pre ≠ []
      ∧ pre.all Char.isDigit = true ∧ numeralValue pre = n := by
  induction fuel with
  | zero => intro n acc h; omega
  | succ fuel ih =>
    intro n acc h
    obtain ⟨hd1, hd2⟩ := digitChar_spec (n % 10) (Nat.mod_lt _ (by norm_num))
    by_cases h0 : n / 10 = 0
    · refine ⟨[Nat.digitChar (n % 10)], ?_, by simp, by simp [hd1], ?_⟩
      · simp [Nat.toDigitsCore, h0]
      · simp only [numeralValue, List.foldl_cons, List.foldl_nil, hd2]
        omega
    · obtain ⟨pre, hp1, hp2, hp3, hp4⟩ :=
        ih (n / 10) (Nat.digitChar (n % 10) :: acc) (by omega)
      refine ⟨pre ++ [Nat.digitChar (n % 10)], ?_, by simp, ?_, ?_⟩
      · simp [Nat.toDigitsCore, h0, hp1]
      · simp [List.all_append, hp3, hd1]
      · unfold numeralValue at hp4 ⊢
        rw [List.foldl_append, hp4]
        simp only [List.foldl_cons, List.foldl_nil, hd2]
        omega

theorem toString_nat_spec (n : Nat) :
    IsDecimalInteger (toString n) = true ∧ decimalValue (toString n) = (n : Int) := by
  obtain ⟨pre, hp1, hp2, hp3, hp4⟩ := toDigitsCore_spec (n + 1) n [] (by omega)
  have hl : (toString n).toList = pre := by
    show (Nat.repr n).toList = pre
    simp [Nat.repr, Nat.toDigits, hp1, List.asString]
  unfold IsDecimalInteger decimalValue
  rw [hl]
  cases pre with
  | nil => exact absurd rfl hp2
  | cons c cs =>
    have hc : c.isDigit = true := by
      simp only [List.all_cons, Bool.and_eq_true] at hp3
      exact hp3.1
    have hm : c ≠ '-' := by
      intro h; rw [h] at hc; exact absurd hc (by decide)
    have hpl : c ≠ '+' := by
      intro h; rw [h] at hc; exact absurd hc (by decide)
    have hu : unsignedPart (c :: cs) = c :: cs := by simp [unsignedPart, hm, hpl]
    rw [hu]
    refine ⟨?_, ?_⟩
    · simp only [IsNumeral, List.isEmpty_cons, Bool.not_false, Bool.true_and]
      exact hp3
    · simp [hm, hp4]


/-! ## Properties of the handlers -/

theorem atoi_invalid (s : String)
    (h : s = "0" ∨ (IsDecimalInteger s = true ∧ decimalValue s ≤ 0) ∨ s = ""
      ∨ IsDecimalInteger s = false) :
    (Atoi s).2 ≠ none ∨ (Atoi s).1 ≤ 0 := by
  by_cases he : (Atoi s).2 = none
  · right
    have hv := (Atoi_spec s).2 he
    have hd := ((Atoi_spec s).1.mp he).1
    rcases h with h | h | h | h
    · subst h; decide
    · rw [hv]; omega
    · subst h; revert hd; decide
    · rw [h] at hd; exact absurd hd (by decide)
  · left; exact he

theorem atoi_toString (n : Nat) (h : n ≤ 9223372036854775807) :
    Atoi (toString n) = ((n : Int), none) := by
  obtain ⟨h1, h2⟩ := toString_nat_spec n
  have hnone : (Atoi (toString n)).2 = none :=
    (Atoi_spec (toString n)).1.mpr ⟨h1, by rw [h2]; omega, by rw [h2]; omega⟩
  have hval := (Atoi_spec (toString n)).2 hnone
  rw [h2] at hval
  exact Prod.ext hval hnone

theorem completedParts_eq_map (parts : List Part) :
    completedParts parts
      = parts.map (fun p => { PartNumber := int32 p.PartNumber, ETag := p.ETag }) := by
  unfold completedParts
  suffices h : ∀ (acc : List s3.CompletedPart),
      parts.foldl (fun acc part =>
        acc ++ [({ PartNumber := int32 part.PartNumber, ETag := part.ETag } : s3.CompletedPart)]) acc
        = acc ++ parts.map (fun p => { PartNumber := int32 p.PartNumber, ETag := p.ETag }) by
    simpa using h []
  induction parts with
  | nil => intro acc; simp
  | cons p ps ih => intro acc; simp [List.foldl_cons, ih]

theorem int32_of_range (x : Int) (h1 : -2147483648 ≤ x) (h2 : x ≤ 2147483647) : int32 x = x := by
  unfold int32
  omega

/-- C1: `GetPresignedURLHandler` answers 400 whenever `key` is empty, or
`uploadId` is empty, or `partNumber` is `"0"`, a decimal integer that is
negative (or zero), empty, or not a decimal integer, for every bucket setting
and every storage client. -/
theorem GetPresignedURLHandler_bad_request (env : Env) (r : http.Request)
    (h : r.QueryGet "key" = "" ∨ r.QueryGet "uploadId" = ""
      ∨ r.QueryGet "partNumber" = "0"
      ∨ (IsDecimalInteger (r.QueryGet "partNumber") = true
          ∧ decimalValue (r.QueryGet "partNumber") ≤ 0)
      ∨ r.QueryGet "partNumber" = ""
      ∨ IsDecimalInteger (r.QueryGet "partNumber") = false) :
    (GetPresignedURLHandler env http.NewRecorder r).w.Code = 400 := by
  unfold GetPresignedURLHandler
  by_cases hid : r.QueryGet "uploadId" = ""
  · simp only [hid, if_true]; rfl
  · by_cases hkey : r.QueryGet "key" = ""
    · simp only [hid, hkey, if_true, if_false]; rfl
    · have hpn : (Atoi (r.QueryGet "partNumber")).2 ≠ none
          ∨ (Atoi (r.QueryGet "partNumber")).1 ≤ 0 := by
        rcases h with h | h | h
        · exact absurd h hkey
        · exact absurd h hid
        · exact atoi_invalid _ h
      simp only [hid, hkey, if_false, hpn, if_true]; rfl

theorem GetPresignedURLHandler_bad_request_witness :
    (GetPresignedURLHandler (sampleEnv okClient) http.NewRecorder (presignRequest "abc")).w.Code
      = 400 :=
  GetPresignedURLHandler_bad_request (sampleEnv okClient) (presignRequest "abc")
    (Or.inr (Or.inr (Or.inr (Or.inr (Or.inr (by decide))))))


/-- C2 (as stated, refuted): with non-empty `key` and `uploadId` and
`partNumber` the decimal numeral of `n = 2^63 >= 1`, the handler answers 400
and makes no signing call, although the storage client would have signed. -/
theorem GetPresignedURLHandler_rejects_two_pow_63 :
    (presignRequest "9223372036854775808").QueryGet "key" = "test.webm"
    ∧ (presignRequest "9223372036854775808").QueryGet "uploadId" = "U1"
    ∧ (presignRequest "9223372036854775808").QueryGet "partNumber"
        = toString (9223372036854775808 : Nat)
    ∧ (GetPresignedURLHandler (sampleEnv okClient) http.NewRecorder
        (presignRequest "9223372036854775808")).w.Code = 400
    ∧ (GetPresignedURLHandler (sampleEnv okClient) http.NewRecorder
        (presignRequest "9223372036854775808")).calls = [] := by
  refine ⟨by decide, by decide, by decide, by decide, by decide⟩

/-- C2 (amended): for non-empty `key` and `uploadId` and `partNumber` the
decimal numeral of an integer `n` with `1 <= n <= 2^63 - 1` (the range of the
64-bit `int`), the handler does not answer 400 and makes exactly one signing
call; below that bound no limit is enforced. -/
theorem GetPresignedURLHandler_accepts_int_range (env : Env) (r : http.Request) (n : Nat)
    (hkey : r.QueryGet "key" ≠ "") (hid : r.QueryGet "uploadId" ≠ "")
    (hpn : r.QueryGet "partNumber" = toString n)
    (h1 : 1 ≤ n) (h2 : n ≤ 9223372036854775807) :
    (GetPresignedURLHandler env http.NewRecorder r).w.Code ≠ 400
    ∧ (GetPresignedURLHandler env http.NewRecorder r).calls =
        [RemoteCall.PresignUploadPart
          { Bucket := env.AWS_BUCKET, Key := r.QueryGet "key",
            PartNumber := int32 (n : Int), UploadId := r.QueryGet "uploadId" }
          (3600 * time.Second)] := by
  have ha := atoi_toString n h2
  have hv : ¬ ((none : Option NumError) ≠ none ∨ (n : Int) ≤ 0) := by
    simp; omega
  unfold GetPresignedURLHandler
  simp only [hid, hkey, if_false, hpn, ha, hv]
  cases env.s3Client.PresignUploadPart
      { Bucket := env.AWS_BUCKET, Key := r.QueryGet "key",
        PartNumber := int32 (n : Int), UploadId := r.QueryGet "uploadId" }
      (3600 * time.Second) with
  | error e =>
    refine ⟨?_, rfl⟩
    show (500 : Nat) ≠ 400
    decide
  | ok req =>
    refine ⟨?_, rfl⟩
    show (201 : Nat) ≠ 400
    decide

theorem GetPresignedURLHandler_accepts_int_range_witness :
    (GetPresignedURLHandler (sampleEnv okClient) http.NewRecorder
        (presignRequest "10001")).w.Code ≠ 400
    ∧ (GetPresignedURLHandler (sampleEnv okClient) http.NewRecorder
        (presignRequest "10001")).calls =
        [RemoteCall.PresignUploadPart
          { Bucket := "bkt", Key := "test.webm", PartNumber := int32 ((10001 : Nat) : Int),
            UploadId := "U1" }
          (3600 * time.Second)] :=
  GetPresignedURLHandler_accepts_int_range (sampleEnv okClient) (presignRequest "10001") 10001
    (by decide) (by decide) (by decide) (by decide) (by decide)

/-- C3 (as stated, refuted): for `key = "test.webm"`, token `"U1"` and
`partNumber` the numeral of `n = 10^19 >= 1`, with a storage client that signs
every request, the handler answers 400 with a plain-text message, not 201. -/
theorem GetPresignedURLHandler_not_created_beyond_int_range :
    (presignRequest "10000000000000000000").QueryGet "partNumber"
        = toString (10000000000000000000 : Nat)
    ∧ (∀ input expires, ∃ req,
        (sampleEnv okClient).s3Client.PresignUploadPart input expires = Except.ok req)
    ∧ (GetPresignedURLHandler (sampleEnv okClient) http.NewRecorder
        (presignRequest "10000000000000000000")).w.Code = 400
    ∧ (GetPresignedURLHandler (sampleEnv okClient) http.NewRecorder
        (presignRequest "10000000000000000000")).w.Body
        = [Chunk.text "Invalid 'partNumber' parameter\n"] := by
  refine ⟨by decide, fun _ _ => ⟨_, rfl⟩, by decide, by decide⟩

/-- C3 (amended): for non-empty `key`, non-empty token `T` and `partNumber` the
numeral of `n` with `1 <= n <= 2^63 - 1`, when the signing call succeeds the
handler answers 201 with the JSON object holding the signer's URL, `T`, `n` and
the RFC 3339 text of the clock reading plus 3600 s; that instant is 3600 whole
seconds after the second of the reading and strictly later than any instant not
after the reading. -/
theorem GetPresignedURLHandler_created (env : Env) (r : http.Request) (n : Nat)
    (req : s3.PresignedHTTPRequest)
    (hkey : r.QueryGet "key" ≠ "") (hid : r.QueryGet "uploadId" ≠ "")
    (hpn : r.QueryGet "partNumber" = toString n)
    (h1 : 1 ≤ n) (h2 : n ≤ 9223372036854775807)
    (hok : env.s3Client.PresignUploadPart
        { Bucket := env.AWS_BUCKET, Key := r.QueryGet "key",
          PartNumber := int32 (n : Int), UploadId := r.QueryGet "uploadId" }
        (3600 * time.Second) = Except.ok req) :
    (GetPresignedURLHandler env http.NewRecorder r).w.Code = 201
    ∧ (GetPresignedURLHandler env http.NewRecorder r).w.Body =
        [Chunk.json
          [("uploadUrl", Json.str req.URL),
           ("uploadId", Json.str (r.QueryGet "uploadId")),
           ("partNumber", Json.num (n : Int)),
           ("expiresAt", Json.str (env.RFC3339 (time.Unix env.Now + 3600)))]]
    ∧ (GetPresignedURLHandler env http.NewRecorder r).panicked = false
    ∧ (∀ t0 : Nat, t0 ≤ env.Now → t0 < (time.Unix env.Now + 3600) * time.Second) := by
  have ha := atoi_toString n h2
  have hv : ¬ ((none : Option NumError) ≠ none ∨ (n : Int) ≤ 0) := by
    simp; omega
  have ht : time.Unix (env.Now + 3600 * time.Second) = time.Unix env.Now + 3600 := by
    unfold time.Unix time.Second
    omega
  refine ⟨?_, ?_, ?_, ?_⟩
  · unfold GetPresignedURLHandler
    simp only [hid, hkey, if_false, hpn, ha, hv, hok]
    rfl
  · unfold GetPresignedURLHandler
    simp only [hid, hkey, if_false, hpn, ha, hv, hok, ht]
    rfl
  · unfold GetPresignedURLHandler
    simp only [hid, hkey, if_false, hpn, ha, hv, hok]
    rfl
  · intro t0 h0
    unfold time.Unix time.Second
    omega

theorem GetPresignedURLHandler_created_witness :
    (GetPresignedURLHandler (sampleEnv okClient) http.NewRecorder (presignRequest "1")).w.Code
      = 201
    ∧ (GetPresignedURLHandler (sampleEnv okClient) http.NewRecorder (presignRequest "1")).w.Body =
        [Chunk.json
          [("uploadUrl", Json.str "https://signed"),
           ("uploadId", Json.str "U1"),
           ("partNumber", Json.num 1),
           ("expiresAt", Json.str "1700003600")]] := by
  have h := GetPresignedURLHandler_created (sampleEnv okClient) (presignRequest "1") 1
    { URL := "https://signed" } (by decide) (by decide) (by decide) (by decide) (by decide) rfl
  exact ⟨h.1, by decide⟩

/-- C4 (the code departs from the claim): for `partNumber=4294967297` the
signing request carries part number 1 while the response echoes 4294967297, and
for `partNumber=4294967296`, which passes the check `partNumber <= 0`, the
signing request carries part number 0 and the response is 201. -/
theorem GetPresignedURLHandler_truncates_part_number :
    (GetPresignedURLHandler (sampleEnv okClient) http.NewRecorder
        (presignRequest "4294967297")).calls =
      [RemoteCall.PresignUploadPart
        { Bucket := "bkt", Key := "test.webm", PartNumber := 1, UploadId := "U1" }
        3600000000000]
    ∧ (GetPresignedURLHandler (sampleEnv okClient) http.NewRecorder
        (presignRequest "4294967297")).w.Body =
      [Chunk.json
        [("uploadUrl", Json.str "https://signed"),
         ("uploadId", Json.str "U1"),
         ("partNumber", Json.num 4294967297),
         ("expiresAt", Json.str "1700003600")]]
    ∧ (GetPresignedURLHandler (sampleEnv okClient) http.NewRecorder
        (presignRequest "4294967296")).calls =
      [RemoteCall.PresignUploadPart
        { Bucket := "bkt", Key := "test.webm", PartNumber := 0, UploadId := "U1" }
        3600000000000]
    ∧ (GetPresignedURLHandler (sampleEnv okClient) http.NewRecorder
        (presignRequest "4294967296")).w.Code = 201 := by
  refine ⟨by decide, by decide, by decide, by decide⟩


/-- C5: in each of the three handlers, a response with status 400 implies that
no operation of the storage client was invoked during the request. -/
theorem bad_request_not_forwarded (env : Env) (r : http.Request) :
    ((InitiateMultipartUploadHandler env http.NewRecorder r).w.Code = 400 →
        (InitiateMultipartUploadHandler env http.NewRecorder r).calls = [])
    ∧ ((GetPresignedURLHandler env http.NewRecorder r).w.Code = 400 →
        (GetPresignedURLHandler env http.NewRecorder r).calls = [])
    ∧ ((CompleteMultipartUploadHandler env http.NewRecorder r).w.Code = 400 →
        (CompleteMultipartUploadHandler env http.NewRecorder r).calls = []) := by
  refine ⟨?_, ?_, ?_⟩
  · unfold InitiateMultipartUploadHandler
    by_cases hb : env.AWS_BUCKET = ""
    · simp only [hb, if_true, implies_true]
    · by_cases hk : r.QueryGet "key" = ""
      · simp only [hb, hk, if_true, if_false, implies_true]
      · simp only [hb, hk, if_false]
        cases env.s3Client.CreateMultipartUpload
            { Bucket := env.AWS_BUCKET, Key := r.QueryGet "key" } with
        | error e => intro h; exact absurd h (by show (500 : Nat) ≠ 400; decide)
        | ok out =>
          cases hu : out.UploadId with
          | none => simp only [hu]; intro h; exact absurd h (by show (200 : Nat) ≠ 400; decide)
          | some u => simp only [hu]; intro h; exact absurd h (by show (202 : Nat) ≠ 400; decide)
  · unfold GetPresignedURLHandler
    by_cases hid : r.QueryGet "uploadId" = ""
    · simp only [hid, if_true, implies_true]
    · by_cases hk : r.QueryGet "key" = ""
      · simp only [hid, hk, if_true, if_false, implies_true]
      · by_cases hp : (Atoi (r.QueryGet "partNumber")).2 ≠ none
            ∨ (Atoi (r.QueryGet "partNumber")).1 ≤ 0
        · simp only [hid, hk, hp, if_true, if_false, implies_true]
        · simp only [hid, hk, hp, if_false]
          cases env.s3Client.PresignUploadPart
              { Bucket := env.AWS_BUCKET, Key := r.QueryGet "key",
                PartNumber := int32 (Atoi (r.QueryGet "partNumber")).1,
                UploadId := r.QueryGet "uploadId" }
              (3600 * time.Second) with
          | error e => intro h; exact absurd h (by show (500 : Nat) ≠ 400; decide)
          | ok req => intro h; exact absurd h (by show (201 : Nat) ≠ 400; decide)
  · unfold CompleteMultipartUploadHandler
    by_cases hk : r.QueryGet "key" = "" ∨ r.QueryGet "uploadId" = ""
    · simp only [hk, if_true, implies_true]
    · simp only [hk, if_false]
      cases env.Decode r.Body with
      | error e => simp only [implies_true]
      | ok body =>
        simp only []
        cases env.s3Client.CompleteMultipartUpload
            { Bucket := env.AWS_BUCKET, Key := r.QueryGet "key",
              UploadId := r.QueryGet "uploadId",
              MultipartUpload := completedParts body.Parts } with
        | error e => intro h; exact absurd h (by show (500 : Nat) ≠ 400; decide)
        | ok u => intro h; exact absurd h (by show (200 : Nat) ≠ 400; decide)

theorem bad_request_not_forwarded_witness :
    (InitiateMultipartUploadHandler (sampleEnv okClient) http.NewRecorder
        (initiateRequest "")).calls = []
    ∧ (GetPresignedURLHandler (sampleEnv okClient) http.NewRecorder
        (presignRequest "0")).calls = []
    ∧ (CompleteMultipartUploadHandler (sampleEnv okClient) http.NewRecorder
        (completeRequest "not json")).calls = [] :=
  ⟨(bad_request_not_forwarded (sampleEnv okClient) (initiateRequest "")).1 (by decide),
   (bad_request_not_forwarded (sampleEnv okClient) (presignRequest "0")).2.1 (by decide),
   (bad_request_not_forwarded (sampleEnv okClient) (completeRequest "not json")).2.2 (by decide)⟩

/-- C6: in each of the three handlers, when the request passes the local checks
and the storage operation returns an error with message `m`, the response has
status 500, its body is the handler's fixed text followed by `m` (and the line
end `http.Error` appends), and the operation was invoked exactly once. -/
theorem remote_error_surfaced (env : Env) (r : http.Request) (m : String) :
    (env.AWS_BUCKET ≠ "" → r.QueryGet "key" ≠ "" →
      env.s3Client.CreateMultipartUpload
        { Bucket := env.AWS_BUCKET, Key := r.QueryGet "key" } = Except.error m →
      (InitiateMultipartUploadHandler env http.NewRecorder r).w.Code = 500
      ∧ (InitiateMultipartUploadHandler env http.NewRecorder r).w.Body
          = [Chunk.text ("Failed to create multipart upload: " ++ m ++ "\n")]
      ∧ (InitiateMultipartUploadHandler env http.NewRecorder r).calls
          = [RemoteCall.CreateMultipartUpload
              { Bucket := env.AWS_BUCKET, Key := r.QueryGet "key" }])
    ∧ (r.QueryGet "uploadId" ≠ "" → r.QueryGet "key" ≠ "" →
      (Atoi (r.QueryGet "partNumber")).2 = none → 0 < (Atoi (r.QueryGet "partNumber")).1 →
      env.s3Client.PresignUploadPart
        { Bucket := env.AWS_BUCKET, Key := r.QueryGet "key",
          PartNumber := int32 (Atoi (r.QueryGet "partNumber")).1,
          UploadId := r.QueryGet "uploadId" }
        (3600 * time.Second) = Except.error m →
      (GetPresignedURLHandler env http.NewRecorder r).w.Code = 500
      ∧ (GetPresignedURLHandler env http.NewRecorder r).w.Body
          = [Chunk.text ("Failed to generate presigned URL: " ++ m ++ "\n")]
      ∧ (GetPresignedURLHandler env http.NewRecorder r).calls
          = [RemoteCall.PresignUploadPart
              { Bucket := env.AWS_BUCKET, Key := r.QueryGet "key",
                PartNumber := int32 (Atoi (r.QueryGet "partNumber")).1,
                UploadId := r.QueryGet "uploadId" }
              (3600 * time.Second)])
    ∧ (∀ body : RequestBody, r.QueryGet "key" ≠ "" → r.QueryGet "uploadId" ≠ "" →
      env.Decode r.Body = Except.ok body →
      env.s3Client.CompleteMultipartUpload
        { Bucket := env.AWS_BUCKET, Key := r.QueryGet "key",
          UploadId := r.QueryGet "uploadId",
          MultipartUpload := completedParts body.Parts } = Except.error m →
      (CompleteMultipartUploadHandler env http.NewRecorder r).w.Code = 500
      ∧ (CompleteMultipartUploadHandler env http.NewRecorder r).w.Body
          = [Chunk.text ("Failed to complete multipart upload: " ++ m ++ "\n")]
      ∧ (CompleteMultipartUploadHandler env http.NewRecorder r).calls
          = [RemoteCall.CompleteMultipartUpload
              { Bucket := env.AWS_BUCKET, Key := r.QueryGet "key",
                UploadId := r.QueryGet "uploadId",
                MultipartUpload := completedParts body.Parts }]) := by
  refine ⟨?_, ?_, ?_⟩
  · intro hb hk he
    unfold InitiateMultipartUploadHandler
    simp only [hb, hk, if_false, he]
    exact ⟨rfl, rfl, trivial⟩
  · intro hid hk h1 h2 he
    have hp : ¬ ((Atoi (r.QueryGet "partNumber")).2 ≠ none
        ∨ (Atoi (r.QueryGet "partNumber")).1 ≤ 0) := by
      rw [h1]; simp; omega
    unfold GetPresignedURLHandler
    simp only [hid, hk, hp, if_false, he]
    exact ⟨rfl, rfl, trivial⟩
  · intro body hk hid hd he
    have hki : ¬ (r.QueryGet "key" = "" ∨ r.QueryGet "uploadId" = "") := by
      rintro (h | h)
      · exact hk h
      · exact hid h
    unfold CompleteMultipartUploadHandler
    simp only [hki, if_false, hd, he]
    exact ⟨rfl, rfl, trivial⟩

theorem remote_error_surfaced_witness :
    ((InitiateMultipartUploadHandler (sampleEnv failClient) http.NewRecorder
        (initiateRequest "test.webm")).w.Code = 500
      ∧ (InitiateMultipartUploadHandler (sampleEnv failClient) http.NewRecorder
          (initiateRequest "test.webm")).w.Body
          = [Chunk.text ("Failed to create multipart upload: " ++ "boom" ++ "\n")]
      ∧ (InitiateMultipartUploadHandler (sampleEnv failClient) http.NewRecorder
          (initiateRequest "test.webm")).calls
          = [RemoteCall.CreateMultipartUpload { Bucket := "bkt", Key := "test.webm" }])
    ∧ (GetPresignedURLHandler (sampleEnv failClient) http.NewRecorder
        (presignRequest "1")).w.Code = 500
    ∧ (CompleteMultipartUploadHandler (sampleEnv failClient) http.NewRecorder
        (completeRequest onePartBody)).w.Code = 500 :=
  ⟨(remote_error_surfaced (sampleEnv failClient) (initiateRequest "test.webm") "boom").1
      (by decide) (by decide) rfl,
   ((remote_error_surfaced (sampleEnv failClient) (presignRequest "1") "boom").2.1
      (by decide) (by decide) (by decide) (by decide) rfl).1,
   ((remote_error_surfaced (sampleEnv failClient) (completeRequest onePartBody) "boom").2.2
      { Parts := [{ PartNumber := 1, ETag := "abc" }] } (by decide) (by decide) rfl rfl).1⟩


/-- The part list is passed through unchanged in length, order and ETags, and
in part numbers too as long as each one fits the 32-bit `int32`. -/
theorem completedParts_of_int32_range (parts : List Part)
    (h : ∀ p ∈ parts, -2147483648 ≤ p.PartNumber ∧ p.PartNumber ≤ 2147483647) :
    completedParts parts
      = parts.map (fun p => { PartNumber := p.PartNumber, ETag := p.ETag }) := by
  rw [completedParts_eq_map]
  apply List.map_congr_left
  intro p hp
  rw [int32_of_range p.PartNumber (h p hp).1 (h p hp).2]

/-- C7 (the code departs from the claim): a body that decodes to the single
part `(4294967297, "abc")` is submitted to the completion call as the part
`(1, "abc")`: the part number is altered by the conversion to `int32`. -/
theorem CompleteMultipartUploadHandler_alters_part_number :
    (sampleEnv okClient).Decode (completeRequest bigPartBody).Body
      = Except.ok { Parts := [{ PartNumber := 4294967297, ETag := "abc" }] }
    ∧ (CompleteMultipartUploadHandler (sampleEnv okClient) http.NewRecorder
        (completeRequest bigPartBody)).calls =
      [RemoteCall.CompleteMultipartUpload
        { Bucket := "bkt", Key := "test.webm", UploadId := "U1",
          MultipartUpload := [{ PartNumber := 1, ETag := "abc" }] }]
    ∧ (CompleteMultipartUploadHandler (sampleEnv okClient) http.NewRecorder
        (completeRequest bigPartBody)).w.Code = 200 := by
  refine ⟨rfl, by decide, by decide⟩

/-- C8: when the configured bucket is empty, `InitiateMultipartUploadHandler`
answers 500 and invokes no storage operation, whatever the request's `key`;
status 400 occurs only with a non-empty bucket and an empty `key`, and then
too no storage operation is invoked. -/
theorem InitiateMultipartUploadHandler_bucket_first (env : Env) (r : http.Request) :
    (env.AWS_BUCKET = "" →
      (InitiateMultipartUploadHandler env http.NewRecorder r).w.Code = 500
      ∧ (InitiateMultipartUploadHandler env http.NewRecorder r).w.Body
          = [Chunk.text "AWS_BUCKET environment variable is not set\n"]
      ∧ (InitiateMultipartUploadHandler env http.NewRecorder r).calls = [])
    ∧ (env.AWS_BUCKET ≠ "" → r.QueryGet "key" = "" →
      (InitiateMultipartUploadHandler env http.NewRecorder r).w.Code = 400
      ∧ (InitiateMultipartUploadHandler env http.NewRecorder r).calls = [])
    ∧ ((InitiateMultipartUploadHandler env http.NewRecorder r).w.Code = 400 →
      env.AWS_BUCKET ≠ "" ∧ r.QueryGet "key" = "") := by
  refine ⟨?_, ?_, ?_⟩
  · intro hb
    unfold InitiateMultipartUploadHandler
    simp only [hb, if_true]
    exact ⟨rfl, rfl, trivial⟩
  · intro hb hk
    unfold InitiateMultipartUploadHandler
    simp only [hb, hk, if_true, if_false]
    exact ⟨rfl, trivial⟩
  · unfold InitiateMultipartUploadHandler
    by_cases hb : env.AWS_BUCKET = ""
    · simp only [hb, if_true]
      intro h; exact absurd h (by show (500 : Nat) ≠ 400; decide)
    · by_cases hk : r.QueryGet "key" = ""
      · intro _; exact ⟨hb, hk⟩
      · simp only [hb, hk, if_false]
        cases env.s3Client.CreateMultipartUpload
            { Bucket := env.AWS_BUCKET, Key := r.QueryGet "key" } with
        | error e => intro h; exact absurd h (by show (500 : Nat) ≠ 400; decide)
        | ok out =>
          cases hu : out.UploadId with
          | none => simp only [hu]; intro h; exact absurd h (by show (200 : Nat) ≠ 400; decide)
          | some u => simp only [hu]; intro h; exact absurd h (by show (202 : Nat) ≠ 400; decide)

theorem InitiateMultipartUploadHandler_bucket_first_witness :
    (InitiateMultipartUploadHandler
        { AWS_BUCKET := "", s3Client := okClient, Now := 0, RFC3339 := fun sec => toString sec,
          Decode := sampleDecode }
        http.NewRecorder (initiateRequest "")).w.Code = 500
    ∧ (InitiateMultipartUploadHandler (sampleEnv okClient) http.NewRecorder
        (initiateRequest "")).w.Code = 400 :=
  ⟨((InitiateMultipartUploadHandler_bucket_first
      { AWS_BUCKET := "", s3Client := okClient, Now := 0, RFC3339 := fun sec => toString sec,
        Decode := sampleDecode } (initiateRequest "")).1 rfl).1,
   ((InitiateMultipartUploadHandler_bucket_first (sampleEnv okClient)
      (initiateRequest "")).2.1 (by decide) (by decide)).1⟩

/-- C9 (as stated, refuted): with bucket `"bkt"`, `key = "test.webm"` and a
storage client whose session creation succeeds with the empty token, the
handler answers 202 with `uploadId` equal to the empty string. -/
theorem InitiateMultipartUploadHandler_empty_token :
    (sampleEnv emptyTokenClient).s3Client.CreateMultipartUpload
        { Bucket := "bkt", Key := "test.webm" } = Except.ok { UploadId := some "" }
    ∧ (InitiateMultipartUploadHandler (sampleEnv emptyTokenClient) http.NewRecorder
        (initiateRequest "test.webm")).w.Code = 202
    ∧ (InitiateMultipartUploadHandler (sampleEnv emptyTokenClient) http.NewRecorder
        (initiateRequest "test.webm")).w.Body = [Chunk.json [("uploadId", Json.str "")]] := by
  refine ⟨rfl, by decide, by decide⟩

/-- C9 (amended): for a non-empty `key` and a configured bucket, when session
creation succeeds with token `U` the handler answers 202 with the JSON object
whose only entry `uploadId` is the string `U` itself (so non-empty exactly when
`U` is), and the one storage request made carries the configured bucket and
the request's key. -/
theorem InitiateMultipartUploadHandler_accepted (env : Env) (r : http.Request) (U : String)
    (hb : env.AWS_BUCKET ≠ "") (hk : r.QueryGet "key" ≠ "")
    (hok : env.s3Client.CreateMultipartUpload
        { Bucket := env.AWS_BUCKET, Key := r.QueryGet "key" }
        = Except.ok { UploadId := some U }) :
    (InitiateMultipartUploadHandler env http.NewRecorder r).w.Code = 202
    ∧ (InitiateMultipartUploadHandler env http.NewRecorder r).w.Body
        = [Chunk.json [("uploadId", Json.str U)]]
    ∧ (InitiateMultipartUploadHandler env http.NewRecorder r).calls
        = [RemoteCall.CreateMultipartUpload
            { Bucket := env.AWS_BUCKET, Key := r.QueryGet "key" }]
    ∧ (InitiateMultipartUploadHandler env http.NewRecorder r).panicked = false := by
  unfold InitiateMultipartUploadHandler
  simp only [hb, hk, if_false, hok]
  exact ⟨rfl, rfl, rfl, rfl⟩

theorem InitiateMultipartUploadHandler_accepted_witness :
    (InitiateMultipartUploadHandler (sampleEnv okClient) http.NewRecorder
        (initiateRequest "test.webm")).w.Code = 202
    ∧ (InitiateMultipartUploadHandler (sampleEnv okClient) http.NewRecorder
        (initiateRequest "test.webm")).w.Body = [Chunk.json [("uploadId", Json.str "U1")]] :=
  have h := InitiateMultipartUploadHandler_accepted (sampleEnv okClient)
    (initiateRequest "test.webm") "U1" (by decide) (by decide) rfl
  ⟨h.1, h.2.1⟩

/-- C10: `CompleteMultipartUploadHandler` answers 200 with the body
`Multipart upload completed successfully` exactly when `key` and `uploadId` are
non-empty, the body decodes, and the completion call made with the configured
bucket, that key and that uploadId succeeds; otherwise the status is 400 or
500. -/
theorem CompleteMultipartUploadHandler_ok_iff (env : Env) (r : http.Request) :
    (((CompleteMultipartUploadHandler env http.NewRecorder r).w.Code = 200
        ∧ (CompleteMultipartUploadHandler env http.NewRecorder r).w.Body
            = [Chunk.text "Multipart upload completed successfully"])
      ↔ (r.QueryGet "key" ≠ "" ∧ r.QueryGet "uploadId" ≠ ""
          ∧ ∃ body : RequestBody, env.Decode r.Body = Except.ok body
            ∧ env.s3Client.CompleteMultipartUpload
                { Bucket := env.AWS_BUCKET, Key := r.QueryGet "key",
                  UploadId := r.QueryGet "uploadId",
                  MultipartUpload := completedParts body.Parts } = Except.ok ()))
    ∧ (¬ (r.QueryGet "key" ≠ "" ∧ r.QueryGet "uploadId" ≠ ""
          ∧ ∃ body : RequestBody, env.Decode r.Body = Except.ok body
            ∧ env.s3Client.CompleteMultipartUpload
                { Bucket := env.AWS_BUCKET, Key := r.QueryGet "key",
                  UploadId := r.QueryGet "uploadId",
                  MultipartUpload := completedParts body.Parts } = Except.ok ())
        → (CompleteMultipartUploadHandler env http.NewRecorder r).w.Code = 400
          ∨ (CompleteMultipartUploadHandler env http.NewRecorder r).w.Code = 500) := by
  unfold CompleteMultipartUploadHandler
  by_cases hki : r.QueryGet "key" = "" ∨ r.QueryGet "uploadId" = ""
  · have hno : ¬ (r.QueryGet "key" ≠ "" ∧ r.QueryGet "uploadId" ≠ "") := by
      rintro ⟨h1, h2⟩
      rcases hki with h | h
      · exact h1 h
      · exact h2 h
    simp only [hki, if_true]
    refine ⟨⟨?_, ?_⟩, ?_⟩
    · rintro ⟨h, _⟩; exact absurd h (by show (400 : Nat) ≠ 200; decide)
    · rintro ⟨h1, h2, _⟩; exact absurd ⟨h1, h2⟩ hno
    · intro _; left; rfl
  · have hk : r.QueryGet "key" ≠ "" := fun h => hki (Or.inl h)
    have hid : r.QueryGet "uploadId" ≠ "" := fun h => hki (Or.inr h)
    simp only [hki, if_false]
    cases hd : env.Decode r.Body with
    | error e =>
      refine ⟨⟨?_, ?_⟩, ?_⟩
      · rintro ⟨h, _⟩; exact absurd h (by show (400 : Nat) ≠ 200; decide)
      · rintro ⟨_, _, body, hb, _⟩; cases hb
      · intro _; left; rfl
    | ok body =>
      simp only []
      cases hc : env.s3Client.CompleteMultipartUpload
          { Bucket := env.AWS_BUCKET, Key := r.QueryGet "key",
            UploadId := r.QueryGet "uploadId",
            MultipartUpload := completedParts body.Parts } with
      | error e =>
        refine ⟨⟨?_, ?_⟩, ?_⟩
        · rintro ⟨h, _⟩; exact absurd h (by show (500 : Nat) ≠ 200; decide)
        · rintro ⟨_, _, body2, hb, hc2⟩
          cases hb
          rw [hc] at hc2
          cases hc2
        · intro _; right; rfl
      | ok u =>
        refine ⟨⟨?_, ?_⟩, ?_⟩
        · intro _; exact ⟨hk, hid, body, rfl, hc⟩
        · intro _; exact ⟨rfl, rfl⟩
        · intro hn; exact absurd ⟨hk, hid, body, rfl, hc⟩ hn

theorem CompleteMultipartUploadHandler_ok_iff_witness :
    ((CompleteMultipartUploadHandler (sampleEnv okClient) http.NewRecorder
        (completeRequest onePartBody)).w.Code = 200
      ∧ (CompleteMultipartUploadHandler (sampleEnv okClient) http.NewRecorder
          (completeRequest onePartBody)).w.Body
          = [Chunk.text "Multipart upload completed successfully"])
    ∧ ((CompleteMultipartUploadHandler (sampleEnv okClient) http.NewRecorder
          (completeRequest "not json")).w.Code = 400
        ∨ (CompleteMultipartUploadHandler (sampleEnv okClient) http.NewRecorder
          (completeRequest "not json")).w.Code = 500) :=
  ⟨(CompleteMultipartUploadHandler_ok_iff (sampleEnv okClient) (completeRequest onePartBody)).1.mpr
      ⟨by decide, by decide, { Parts := [{ PartNumber := 1, ETag := "abc" }] }, rfl, rfl⟩,
   (CompleteMultipartUploadHandler_ok_iff (sampleEnv okClient) (completeRequest "not json")).2
      (by rintro ⟨_, _, body, hb, _⟩; cases hb)⟩


end PresignedMultipart
